import Mathlib

set_option autoImplicit false

/-!
Shallow embedding of `tools/lsp/preview/ui.rs` (slint preview property panel):
the value projector (`simplify_value` and its helpers), the runtime value
flattener (`map_value_and_type`), and the grouped-property collection differ
(`update_grouped_properties`), together with theorems settling the frozen
claims about them.

Modelling conventions:
* `f64`/`f32` literal values are modelled as `ℚ`; float rounding is not
  modelled (no claim depends on it).  Machine-integer casts that cannot
  overflow on the inputs of interest are modelled as exact casts, with the
  `i32::try_from(...).ok()` guards kept where the source has them.
* External collaborators (the slint parser, `literals::unescape_string`,
  `literals::parse_color_literal`, `serde_json` rendering) are modelled by
  carrying their *result* in the syntax-node model, or by a concrete
  executable rendering function (`value_to_json`).
* Rust `panic!`-like exits (the `todo!()` arms of `map_value_and_type`) are
  modelled by `Option`: `none` is a panic, `some` a normal return.
* In-place mutation of the `mapping` argument is modelled by explicit state
  passing: each Rust `&mut ValueMapping` function takes and returns the
  record.
-/

/-- `i_slint_compiler::expression_tree::Unit` (the unit suffix of a numeric
literal). -/
inductive Unit' where
  | none
  | percent
  | px
  | phx
  | pt
  | inch
  | mm
  | cm
  | deg
  | grad
  | turn
  | rad
  | s
  | ms
  | rem
deriving DecidableEq

/-- `Display` of `Unit` ("" for `None`, the suffix text otherwise). -/
def Unit'.toDisplay : Unit' → String
  | .none => ""
  | .percent => "%"
  | .px => "px"
  | .phx => "phx"
  | .pt => "pt"
  | .inch => "in"
  | .mm => "mm"
  | .cm => "cm"
  | .deg => "deg"
  | .grad => "grad"
  | .turn => "turn"
  | .rad => "rad"
  | .s => "s"
  | .ms => "ms"
  | .rem => "rem"

/-- `slint::Color`: four 8-bit channels.  `Color::default()` is fully
transparent black (all channels zero). -/
structure Color where
  a : Nat := 0
  r : Nat := 0
  g : Nat := 0
  b : Nat := 0
deriving DecidableEq

/-- `slint::Color::from_argb_u8`. -/
def Color.from_argb_u8 (a r g b : Nat) : Color := { a := a, r := r, g := g, b := b }

/-- `slint::Color::from_argb_encoded`: split a 32-bit ARGB word into
channels. -/
def Color.from_argb_encoded (n : Nat) : Color :=
  { a := n / 2 ^ 24 % 256, r := n / 2 ^ 16 % 256, g := n / 2 ^ 8 % 256, b := n % 256 }

/-- The discriminant of the UI-facing `PropertyValue` struct
(`PropertyValueKind` in the slint markup). -/
inductive PropertyValueKind where
  | code
  | boolean
  | color
  | brush
  | enum'
  | float
  | integer
  | string
deriving DecidableEq

/-- The UI-facing `PropertyValue` struct.  Only the fields the embedded
functions read or write are modelled; every field has the zero default the
slint-generated `Default` impl provides.  `visual_items` (a `ModelRc` of
strings in the source) is a plain list. -/
structure PropertyValue where
  kind : PropertyValueKind := .code
  code : String := ""
  value_bool : Bool := false
  value_brush : Color := {}
  value_float : ℚ := 0
  value_int : Int := 0
  value_string : String := ""
  visual_items : List String := []
  default_selection : Int := 0
  is_translatable : Bool := false
  tr_context : String := ""
  tr_plural : String := ""
  tr_plural_expression : String := ""
deriving DecidableEq

instance : Inhabited PropertyValue := ⟨{}⟩

/-- The UI-facing `PropertyInformation` struct (one row of a property
group). -/
structure PropertyInformation where
  name : String := ""
  type_name : String := ""
  value : PropertyValue := {}
  display_priority : Int := 0
deriving DecidableEq

instance : Inhabited PropertyInformation := ⟨{}⟩

/-- `is_equal_value`: the `code` text is the only identity of a value. -/
def is_equal_value (c n : PropertyValue) : Bool :=
  c.code == n.code

/-- `is_equal_property`. -/
def is_equal_property (c n : PropertyInformation) : Bool :=
  c.name == n.name && c.type_name == n.type_name && is_equal_value c.value n.value

/-- The edit operations collected by `update_grouped_properties` (its local
`enum Op`).  Indices are the pre-advance cursor positions recorded by the
source. -/
inductive Op where
  | insert (c : Nat) (n : Nat)
  | copy (c : Nat) (n : Nat)
  | pushBack (n : Nat)
  | remove (c : Nat)
deriving DecidableEq

/-- The collection phase of `update_grouped_properties`: the two-pointer merge
loop over the current (`cvg`) and next (`nvg`) rows, producing the `to_do`
edit list.  `c_index`/`n_index` mirror the source's counters (note that the
remove branches do not advance `c_index`, and the insert branch advances
both). -/
def updateOps : List PropertyInformation → List PropertyInformation → Nat → Nat → List Op
  | _c :: cs, [], c_index, n_index =>
    Op.remove c_index :: updateOps cs [] c_index n_index
  | c :: cs, n :: ns, c_index, n_index =>
    if c.name < n.name then
      Op.remove c_index :: updateOps cs (n :: ns) c_index n_index
    else if n.name < c.name then
      Op.insert c_index n_index :: updateOps (c :: cs) ns (c_index + 1) (n_index + 1)
    else
      (if is_equal_property c n then [] else [Op.copy c_index n_index])
        ++ updateOps cs ns (c_index + 1) (n_index + 1)
  | [], _n :: ns, c_index, n_index =>
    Op.pushBack n_index :: updateOps [] ns c_index (n_index + 1)
  | [], [], _, _ => []
termination_by cs ns => cs.length + ns.length

/-- `Vec::insert` semantics on a list (insert before position `i`; the source
would panic past the end, which no generated edit script does). -/
def listInsertAt {α : Type} (i : Nat) (a : α) : List α → List α
  | [] => [a]
  | x :: xs => match i with
    | 0 => a :: x :: xs
    | j + 1 => x :: listInsertAt j a xs

/-- Application of one collected `Op` to the current rows.  `row_data(n)`
reads from the next snapshot; the `.unwrap()` cannot fail on generated
scripts and is modelled by a default. -/
def applyOp (nvg : List PropertyInformation) (cur : List PropertyInformation) :
    Op → List PropertyInformation
  | .insert c n => listInsertAt c (nvg.getD n {}) cur
  | .copy c n => cur.set c (nvg.getD n {})
  | .pushBack n => cur ++ [nvg.getD n {}]
  | .remove c => cur.eraseIdx c

/-- `update_grouped_properties`: collect the edit script, then replay it in
order against the current rows. -/
def update_grouped_properties (cvg nvg : List PropertyInformation) :
    List PropertyInformation :=
  (updateOps cvg nvg 0 0).foldl (applyOp nvg) cvg

/-- `object_tree::Enumeration`: name, ordered member names, declared default
index. -/
structure Enumeration where
  name : String := ""
  values : List String := []
  default_value : Nat := 0
deriving DecidableEq

/-- Model of the parsed `@tr(...)` syntax node (`syntax_nodes::AtTr`) as the
accessors of `extract_tr_data` see it:
* `text`: the main `StringLiteral` after `literals::unescape_string`
  (`none` models a missing literal or a failed unescape);
* `context`: the `TrContext` string literal, unescaped (`none` models a
  missing node, missing literal or failed unescape — all are collapsed by
  the source's `unwrap_or_default`);
* `pluralLiteral`: likewise for the `TrPlural` string literal;
* `pluralExpression`: the member chain of the `QualifiedName` child of the
  `TrPlural` expression, when the plural count is such a bare name;
* `args`: the number of interpolation `Expression` children
  (`tr_node.Expression()`). -/
structure TrData where
  text : Option String := none
  context : Option String := none
  pluralLiteral : Option String := none
  pluralExpression : Option (List String) := none
  args : Nat := 0
deriving DecidableEq

/-- Model of a parsed `syntax_nodes::Expression` as the child accessors used
by `simplify_value` see it.  Each constructor records which recognized child
the node has; `other` stands for every expression with none of them,
including a `NumberLiteral` that `literals::parse_number_literal` rejects.
`colorLit` carries the external `literals::parse_color_literal` result for
its text. -/
inductive Expr where
  | number (value : ℚ) (unit : Unit')
  | unary (op : String) (sub : Expr)
  | str (s : String)
  | colorLit (parsed : Option Color) (text : String)
  | qualifiedName (parts : List String)
  | atTr (t : TrData)
  | other
deriving DecidableEq

/-- `expression_tree::Expression`: the already-compiled default value of a
property (`prop_info.default_value`).  Only the variants the embedded
functions match on are distinguished; `other` covers the rest. -/
inductive DefExpr where
  | numberLiteral (value : ℚ) (unit : Unit')
  | boolLiteral (b : Bool)
  | stringLiteral (s : String)
  | enumerationValue (value : Nat)
  | cast (sub : DefExpr)
  | other
deriving DecidableEq

/-- `convert_number_literal`: fold leading unary `+`/`-` into the parsed
numeric literal. -/
def convert_number_literal : Expr → Option (ℚ × Unit')
  | .unary op sub =>
    (match op with
      | "-" => some (-1 : ℚ)
      | "+" => some (1 : ℚ)
      | _ => none).bind fun factor =>
      (convert_number_literal sub).map fun (vu : ℚ × Unit') => (factor * vu.1, vu.2)
  | .number value unit => some (value, unit)
  | _ => none

/-- `extract_value_with_unit_impl`: unit-extraction rule shared by all
numeric kinds.  Returns `none` when the expression is present but is not a
literal with an accepted unit, or when it is absent and `code` is not
empty. -/
def extract_value_with_unit_impl (expression : Option Expr)
    (def_val : Option DefExpr) (code : String) (units : List Unit') :
    Option (PropertyValueKind × ℚ × Int) :=
  match expression with
  | some expression =>
    match convert_number_literal expression with
    | some (value, unit) =>
      match (units.findIdx? (· == unit)).orElse
          (fun _ => if units.isEmpty && unit == Unit'.none then some 0 else none) with
      | some index => some (.float, value, (index : Int))
      | none => none
    | none => none
  | none =>
    if code.isEmpty then
      match def_val with
      | some (.numberLiteral value unit) =>
        some (.float, value, (((units.findIdx? (· == unit)).getD 0 : Nat) : Int))
      | _ => some (.float, 0, 0)
    else none

/-- `unit_model`: the display strings of a unit list. -/
def unit_model (units : List Unit') : List String :=
  units.map Unit'.toDisplay

/-- `extract_value_with_unit`: write the extracted number into the value, or
leave it untouched on failure. -/
def extract_value_with_unit (expression : Option Expr)
    (def_val : Option DefExpr) (units : List Unit') (value : PropertyValue) :
    PropertyValue :=
  match extract_value_with_unit_impl expression def_val value.code units with
  | none => value
  | some (kind, v, index) =>
    { value with
      kind := kind, value_float := v, visual_items := unit_model units,
      value_int := index }

/-- `extract_tr_data`: project a `@tr(...)` marker into a translatable
string value; leaves the value untouched (still `Code`) when the main
literal is missing/unescapable, when interpolation arguments are present,
or when a plural form is present whose count is not a bare qualified
name. -/
def extract_tr_data (tr_node : TrData) (value : PropertyValue) : PropertyValue :=
  match tr_node.text with
  | none => value
  | some text =>
    let context := tr_node.context.getD ""
    let plural := tr_node.pluralLiteral.getD ""
    let plural_expression := tr_node.pluralExpression.map (String.intercalate ".")
    if tr_node.args == 0 && (plural.isEmpty || plural_expression.isSome) then
      { value with
        kind := .string, is_translatable := true, tr_context := context,
        tr_plural := plural, tr_plural_expression := plural_expression.getD "",
        value_string := text }
    else value

/-- `string_to_color`: `literals::parse_color_literal` composed with
`Color::from_argb_encoded`.  The parser is an external collaborator; its
(encoded) output for the node's text is carried by the `Expr.colorLit`
constructor, so here only the text of a literal matters. -/
def string_to_color (parsed : Option Color) : Option Color := parsed

/-- `extract_color`: project a bare color literal as a solid color; the
returned flag mirrors the source's `bool` (ignored by its callers). -/
def extract_color (expression : Expr) (kind : PropertyValueKind)
    (value : PropertyValue) : PropertyValue × Bool :=
  match expression with
  | .colorLit parsed text =>
    match string_to_color parsed with
    | some color =>
      ({ value with kind := kind, value_brush := color, value_string := text }, true)
    | none => (value, false)
  | _ => (value, false)

/-- `f64 as u32` for the ARGB word of a default brush (exact on the values
the compiler produces; saturation is not modelled). -/
def ratToARGB (q : ℚ) : Nat := q.num.toNat / q.den

/-- `set_default_brush`: derive the brush from the compiled default value,
or fall back to `#00000000` (fully transparent black). -/
def set_default_brush (kind : PropertyValueKind) (def_val : Option DefExpr)
    (value : PropertyValue) : PropertyValue :=
  let value := { value with kind := kind }
  let def_val := match def_val with
    | some (.cast sub) => some sub
    | x => x
  match def_val with
  | some (.numberLiteral v _) =>
    { value with value_brush := Color.from_argb_encoded (ratToARGB v) }
  | _ =>
    { value with
      value_string := "#00000000", value_brush := Color.from_argb_encoded 0 }

/-- `QualifiedTypeName::to_string`: the member chain joined with dots. -/
def qualifiedToString (parts : List String) : String :=
  String.intercalate "." parts

/-- `str::strip_prefix`. -/
def stripPre (pre s : String) : Option String :=
  if pre.isPrefixOf s then some (s.drop pre.length) else none

/-- `i32::try_from` for a `usize`, as `Option`. -/
def i32OfNat? (n : Nat) : Option Int :=
  if n ≤ 2 ^ 31 - 1 then some (n : Int) else none

/-- `f64 as i32` (truncation toward zero; saturation not modelled — no
embedded input exercises it). -/
def ratToI32 (q : ℚ) : Int := q.num / (q.den : Int)

/-- The member text the enumeration branch of `simplify_value` looks up: the
qualified name's text with a leading `EnumName.` stripped when present. -/
def enumMemberText (e : Enumeration) (parts : List String) : String :=
  let n_str := qualifiedToString parts
  match stripPre (e.name ++ ".") n_str with
  | some s => s
  | none => n_str

mutual
/-- `langtype::Type`, restricted to the constructors the embedded functions
distinguish.  `struct` fields are an ordered association list (the source's
`BTreeMap` iterates in its key order).  `other` covers every remaining
variant (`Invalid`, `Void`, `Callback`, ...), which both embedded `match`es
send to their final arm. -/
inductive Ty where
  | float32
  | int32
  | duration
  | physicalLength
  | logicalLength
  | rem
  | angle
  | percent
  | string
  | color
  | image
  | bool
  | model
  | pathData
  | easing
  | brush
  | array (elem : Ty)
  | struct (fields : TyFields)
  | enumeration (e : Enumeration)
  | unitProduct
  | other

/-- The field list of a `struct` type (a specialized list so that the
flattener's recursion is structural). -/
inductive TyFields where
  | nil
  | cons (name : String) (ty : Ty) (rest : TyFields)
end

/-- `properties::DefinitionInformation`, reduced to the one field
`simplify_value` reads: the `code_block_or_expression` node, as its raw text
plus its `expression()` accessor (`none` when the node is a code block that
is not a single expression). -/
structure DefinitionInformation where
  text : String := ""
  expression : Option Expr := none

/-- `properties::PropertyInformation` (the query-side input of
`simplify_value`), reduced to the fields it reads. -/
structure PropertyInformationQ where
  name : String := ""
  ty : Ty := .other
  defined_at : Option DefinitionInformation := none
  default_value : Option DefExpr := none

/-- The initial value `simplify_value` builds before dispatching on the
type: `Code` kind, `code` holding the defining expression's text
verbatim. -/
def initValue (prop_info : PropertyInformationQ) : PropertyValue :=
  { code := (prop_info.defined_at.map DefinitionInformation.text).getD ""
    kind := .code }

/-- The expression of the property's defining `code_block_or_expression`,
when there is one. -/
def exprOf (prop_info : PropertyInformationQ) : Option Expr :=
  prop_info.defined_at.bind DefinitionInformation.expression

/-- `simplify_value`: project a typed property (type, optional defining
expression, optional compiled default) into one `PropertyValue`. -/
def simplify_value (prop_info : PropertyInformationQ) : PropertyValue :=
  let expression := exprOf prop_info
  let value := initValue prop_info
  let def_val := prop_info.default_value
  match prop_info.ty with
  | .float32 => extract_value_with_unit expression def_val [] value
  | .duration => extract_value_with_unit expression def_val [.s, .ms] value
  | .physicalLength | .logicalLength | .rem =>
    extract_value_with_unit expression def_val
      [.px, .cm, .mm, .inch, .pt, .phx, .rem] value
  | .angle =>
    extract_value_with_unit expression def_val [.deg, .grad, .turn, .rad] value
  | .percent => extract_value_with_unit expression def_val [.percent] value
  | .int32 =>
    match expression with
    | some expression =>
      match convert_number_literal expression with
      | some (v, unit) =>
        if unit == Unit'.none then
          { value with kind := .integer, value_int := ratToI32 v }
        else value
      | none => value
    | none =>
      if value.code.isEmpty then { value with kind := .integer } else value
  | .color =>
    match expression with
    | some expression => (extract_color expression .color value).1
    | none =>
      if value.code.isEmpty then set_default_brush .color def_val value else value
  | .brush =>
    match expression with
    | some expression => (extract_color expression .brush value).1
    | none =>
      if value.code.isEmpty then set_default_brush .brush def_val value else value
  | .bool =>
    match expression with
    | some expression =>
      let qualified_name := match expression with
        | .qualifiedName parts => qualifiedToString parts
        | _ => ""
      if qualified_name == "true" || qualified_name == "false" then
        { value with kind := .boolean, value_bool := qualified_name == "true" }
      else value
    | none =>
      if value.code.isEmpty then
        { value with
          kind := .boolean
          value_bool := match def_val with
            | some (.boolLiteral v) => v
            | _ => value.value_bool }
      else value
  | .string =>
    match expression with
    | some expression =>
      match expression with
      | .str text => { value with kind := .string, value_string := text }
      | .atTr tr_node => extract_tr_data tr_node value
      | _ => value
    | none =>
      if value.code.isEmpty then
        { value with
          kind := .string
          value_string := match def_val with
            | some (.stringLiteral v) => v
            | _ => value.value_string }
      else value
  | .enumeration enumeration =>
    let value := { value with
      kind := .enum'
      value_string := enumeration.name
      default_selection := (i32OfNat? enumeration.default_value).getD 0
      visual_items := enumeration.values }
    match expression with
    | some expression =>
      match expression with
      | .qualifiedName parts =>
        let text := enumMemberText enumeration parts
        { value with
          value_int :=
            ((enumeration.values.findIdx? (· == text)).bind i32OfNat?).getD 0 }
      | _ => value
    | none =>
      match def_val with
      | some (.enumerationValue v) => { value with value_int := (v : Int) }
      | _ => value
  | _ => value

mutual
/-- `slint_interpreter::Value`, restricted to the variants the flattener's
`get_value::<T>` conversions distinguish; `void` covers every remaining
variant.  Numbers are `ℚ` (see the header note). -/
inductive RValue where
  | number (n : ℚ)
  | string (s : String)
  | bool (b : Bool)
  | color (c : Color)
  | model (elements : RValueList)
  | struct (fields : RValueStruct)
  | void

/-- The element list of a `Value::Model` (specialized so the JSON rendering
recursion is structural). -/
inductive RValueList where
  | nil
  | cons (head : RValue) (tail : RValueList)

/-- The field list of a `Value::Struct`, in iteration order. -/
inductive RValueStruct where
  | nil
  | cons (name : String) (head : RValue) (tail : RValueStruct)
end

/-- The elements of a model value as a plain list. -/
def RValueList.toList : RValueList → List RValue
  | .nil => []
  | .cons head tail => head :: tail.toList

/-- `Struct::get_field`. -/
def RValueStruct.get_field (f : String) : RValueStruct → Option RValue
  | .nil => none
  | .cons name head tail => if name == f then some head else tail.get_field f

mutual
/-- `slint_interpreter::json::value_to_json` composed with
`serde_json::to_string_pretty`, modelled as a compact executable JSON
rendering (the exact serde text — pretty-printing, number formatting — is
not reproduced; no claim inspects the rendered text itself). -/
def value_to_json : RValue → String
  | .number n => toString n
  | .string s => "\x22" ++ s ++ "\x22"
  | .bool b => if b then "true" else "false"
  | .color c => "\x22#" ++ toString c.a ++ "," ++ toString c.r ++ ","
      ++ toString c.g ++ "," ++ toString c.b ++ "\x22"
  | .model elements => "[" ++ jsonList elements ++ "]"
  | .struct fields => "\x7b" ++ jsonStruct fields ++ "\x7d"
  | .void => "null"

def jsonList : RValueList → String
  | .nil => ""
  | .cons head .nil => value_to_json head
  | .cons head tail => value_to_json head ++ "," ++ jsonList tail

def jsonStruct : RValueStruct → String
  | .nil => ""
  | .cons name head .nil => "\x22" ++ name ++ "\x22:" ++ value_to_json head
  | .cons name head tail =>
    "\x22" ++ name ++ "\x22:" ++ value_to_json head ++ "," ++ jsonStruct tail
end

/-- `get_code`: the JSON rendering of an optional runtime value (empty
string when the value is absent or unrenderable). -/
def get_code (v : Option RValue) : String :=
  match v with
  | none => ""
  | some v => value_to_json v

/-- `get_value::<f32>`. -/
def getF32 (v : Option RValue) : ℚ :=
  match v with
  | some (.number n) => n
  | _ => 0

/-- `get_value::<i32>`. -/
def getI32 (v : Option RValue) : Int :=
  match v with
  | some (.number n) => ratToI32 n
  | _ => 0

/-- `get_value::<bool>`. -/
def getBool (v : Option RValue) : Bool :=
  match v with
  | some (.bool b) => b
  | _ => false

/-- `get_value::<slint::SharedString>`. -/
def getString (v : Option RValue) : String :=
  match v with
  | some (.string s) => s
  | _ => ""

/-- `get_value::<slint::Color>`. -/
def getColor (v : Option RValue) : Color :=
  match v with
  | some (.color c) => c
  | _ => {}

/-- `get_value::<slint::ModelRc<Value>>` (an absent or non-model value
converts to the default, empty, model). -/
def getModel (v : Option RValue) : RValueList :=
  match v with
  | some (.model elements) => elements
  | _ => .nil

/-- `get_value::<slint_interpreter::Struct>`. -/
def getStruct (v : Option RValue) : RValueStruct :=
  match v with
  | some (.struct fields) => fields
  | _ => .nil

/-- Two lowercase hex digits (the `{:02x}` of the color formatting). -/
def hex2 (n : Nat) : String :=
  String.mk [Nat.digitChar (n / 16 % 16), Nat.digitChar (n % 16)]

/-- The `f32` display used for `value_string` (decimal float formatting is
abstracted to the `ℚ` rendering; no claim inspects this text). -/
def displayF32 (q : ℚ) : String := toString q

/-- The `ValueMapping` accumulator of `map_value_and_type`. -/
structure ValueMapping where
  name_prefix : String := ""
  is_too_complex : Bool := false
  is_array : Bool := false
  header : List String := []
  current_values : List PropertyValue := []
  array_values : List (List PropertyValue) := []
deriving DecidableEq

/-- The unconditional tail of `map_value_and_type` (it runs on every return
path, including every recursive call): when no row-group was produced, move
(`std::mem::take`) `current_values` into a single row-group — leaving
`current_values` empty for the caller — and when the mapping has been judged
too complex, discard everything in favour of the single-row single-column
JSON escape hatch. -/
def finalize (value : Option RValue) (m : ValueMapping) : ValueMapping :=
  let m := if m.array_values.isEmpty then
      { m with array_values := [m.current_values], current_values := [] }
    else m
  if m.is_too_complex then
    { m with
      is_array := false
      header := [""]
      array_values := [[{ kind := .code, code := get_code value }]] }
  else m

mutual
/-- `map_value_and_type`: recursively flatten a typed runtime value into
header columns and row-groups.  `none` models the `todo!()` panics of the
`Image`, `Model`, `PathData`, `Easing`, `Brush`, `Enumeration` and
`UnitProduct` arms; every other arm returns normally. -/
def map_value_and_type (ty : Ty) (value : Option RValue) (mapping : ValueMapping) :
    Option ValueMapping :=
  Option.map (finalize value)
  (match ty with
  | .float32 =>
    some { mapping with
      header := mapping.header ++ [mapping.name_prefix]
      current_values := mapping.current_values ++
        [{ kind := .float, value_float := getF32 value,
           value_string := displayF32 (getF32 value), code := get_code value }] }
  | .int32 =>
    some { mapping with
      header := mapping.header ++ [mapping.name_prefix]
      current_values := mapping.current_values ++
        [{ kind := .integer, value_int := getI32 value,
           value_string := toString (getI32 value), code := get_code value }] }
  | .duration =>
    some { mapping with
      header := mapping.header ++ [mapping.name_prefix]
      current_values := mapping.current_values ++
        [{ kind := .float, value_float := getF32 value,
           value_string := displayF32 (getF32 value) ++ Unit'.toDisplay .ms,
           visual_items := unit_model [.s, .ms], value_int := 0,
           code := get_code value, default_selection := 1 }] }
  | .physicalLength | .logicalLength | .rem =>
    some { mapping with
      header := mapping.header ++ [mapping.name_prefix]
      current_values := mapping.current_values ++
        [{ kind := .float, value_float := getF32 value,
           value_string := displayF32 (getF32 value) ++ Unit'.toDisplay .px,
           visual_items := unit_model [.px, .cm, .mm, .inch, .pt, .phx, .rem],
           value_int := 0, code := get_code value, default_selection := 0 }] }
  | .angle =>
    some { mapping with
      header := mapping.header ++ [mapping.name_prefix]
      current_values := mapping.current_values ++
        [{ kind := .float, value_float := getF32 value,
           value_string := displayF32 (getF32 value) ++ Unit'.toDisplay .deg,
           visual_items := unit_model [.deg, .grad, .turn, .rad], value_int := 0,
           code := get_code value, default_selection := 0 }] }
  | .percent =>
    some { mapping with
      header := mapping.header ++ [mapping.name_prefix]
      current_values := mapping.current_values ++
        [{ kind := .float, value_float := getF32 value,
           value_string := displayF32 (getF32 value) ++ Unit'.toDisplay .percent,
           visual_items := unit_model [.percent], value_int := 0,
           code := get_code value, default_selection := 0 }] }
  | .string =>
    some { mapping with
      header := mapping.header ++ [mapping.name_prefix]
      current_values := mapping.current_values ++
        [{ kind := .string, value_string := getString value, code := get_code value }] }
  | .color =>
    let color := getColor value
    let color_string :=
      "#" ++ hex2 color.r ++ hex2 color.g ++ hex2 color.b ++ hex2 color.a
    some { mapping with
      header := mapping.header ++ [mapping.name_prefix]
      current_values := mapping.current_values ++
        [{ kind := .color, value_brush := color, value_string := color_string,
           code := get_code value }] }
  | .image => none
  | .bool =>
    some { mapping with
      header := mapping.header ++ [mapping.name_prefix]
      current_values := mapping.current_values ++
        [{ kind := .boolean, value_bool := getBool value,
           value_string := if getBool value then "true" else "false",
           code := get_code value }] }
  | .model => none
  | .pathData => none
  | .easing => none
  | .brush => none
  | .array sty =>
    (map_value_and_type sty none { name_prefix := mapping.name_prefix }).bind
      fun sm =>
      let mapping := { mapping with
        is_too_complex := mapping.is_too_complex || sm.is_too_complex || sm.is_array
        is_array := true }
      if !mapping.is_too_complex then
        let mapping := { mapping with
          current_values := mapping.current_values ++ sm.current_values }
        ((getModel value).toList.foldlM
          (fun (acc : List String × List (List PropertyValue)) v =>
            (map_value_and_type sty (some v) {}).map fun (esm : ValueMapping) =>
              (if acc.1.isEmpty then esm.header else acc.1,
               acc.2 ++ [esm.current_values]))
          (mapping.header, [])).map
          fun (res : List String × List (List PropertyValue)) =>
            { mapping with header := res.1, array_values := res.2 }
      else some mapping
  | .struct s => mapStructFields s (getStruct value) mapping
  | .enumeration _ => none
  | .unitProduct => none
  | _ =>
    some { mapping with
      header := mapping.header ++ [mapping.name_prefix]
      current_values := mapping.current_values ++
        [{ kind := .code, value_string := "???", code := get_code value }] }
  : Option ValueMapping)

/-- The `for (f, sty) in s.fields.iter()` loop of the `Struct` arm: flatten
each field under a dotted name prefix and concatenate. -/
def mapStructFields (fields : TyFields) (value_struct : RValueStruct)
    (mapping : ValueMapping) : Option ValueMapping :=
  match fields with
  | .nil => some mapping
  | .cons f sty rest =>
    (map_value_and_type sty (value_struct.get_field f)
        { name_prefix :=
            if mapping.name_prefix.isEmpty then f
            else mapping.name_prefix ++ "." ++ f }).bind
      fun sm =>
      mapStructFields rest value_struct
        { mapping with
          header := mapping.header ++ sm.header
          current_values := mapping.current_values ++ sm.current_values
          is_too_complex := mapping.is_too_complex || sm.is_too_complex || sm.is_array
          is_array := false }
end

/-- The `on_rgba_to_color` callback registered by `create_ui`: build a color
from `i32` components when all four are in `0..256`, otherwise return
`Color::default()`. -/
def rgba_to_color (r g b a : Int) : Color :=
  if 0 ≤ r ∧ r < 256 ∧ 0 ≤ g ∧ g < 256 ∧ 0 ≤ b ∧ b < 256 ∧ 0 ≤ a ∧ a < 256 then
    Color.from_argb_u8 a.toNat r.toNat g.toNat b.toNat
  else {}

/-- A property row with the given name and source text (shared fixture for
the differ theorems). -/
def mkRow (name code : String) : PropertyInformation :=
  { name := name, type_name := "int", value := { code := code } }

/-- The accepted unit list `simplify_value` passes to `extract_value_with_unit`
for each numeric kind (`none` for non-numeric kinds). -/
def numericUnits : Ty → Option (List Unit')
  | .float32 => some []
  | .duration => some [.s, .ms]
  | .physicalLength | .logicalLength | .rem =>
    some [.px, .cm, .mm, .inch, .pt, .phx, .rem]
  | .angle => some [.deg, .grad, .turn, .rad]
  | .percent => some [.percent]
  | _ => none

/-- The old snapshot of the diff example: rows aaa..eee (codes 1..5). -/
def c1_old : List PropertyInformation :=
  [mkRow "aaa" "1", mkRow "bbb" "2", mkRow "ccc" "3", mkRow "ddd" "4", mkRow "eee" "5"]

/-- The new snapshot: aab/abb inserted, bbb's payload changed, ccc/eee gone. -/
def c1_new : List PropertyInformation :=
  [mkRow "aaa" "1", mkRow "aab" "6", mkRow "abb" "7", mkRow "bbb" "8", mkRow "ddd" "4"]

/-- A sorted two-row sequence (fixture for the self-diff witness). -/
def c9xs : List PropertyInformation := [mkRow "a" "x", mkRow "b" "y"]

/-- Counterexample row: same name and code as `c6cexn`, different type name. -/
def c6cexc : PropertyInformation :=
  { name := "a", type_name := "T", value := { code := "x" } }

/-- Counterexample row paired with `c6cexc`. -/
def c6cexn : PropertyInformation :=
  { name := "a", type_name := "U", value := { code := "x" } }

/-- Witness row: same name and type as `c6wn`, different code. -/
def c6wc : PropertyInformation :=
  { name := "a", type_name := "int", value := { code := "1" } }

/-- Witness row paired with `c6wc`. -/
def c6wn : PropertyInformation :=
  { name := "a", type_name := "int", value := { code := "2" } }

/-- An enumeration whose declared default index is 1, not 0. -/
def c3e : Enumeration := { name := "Dir", values := ["up", "down"], default_value := 1 }

/-- An enumeration-typed property with no defining expression and no compiled
default value. -/
def c3pi : PropertyInformationQ := { name := "d", ty := .enumeration c3e }

/-- A duration property defined by the literal `-2ms`. -/
def c4pi : PropertyInformationQ :=
  { name := "dur", ty := .duration,
    defined_at := some { text := "-2ms", expression := some (.unary "-" (.number 2 .ms)) } }

/-- The parsed shape of `@tr("Context" => "test")`: no interpolation
arguments, no plural form. -/
def c8t : TrData := { text := some "test", context := some "Context" }

/-- A string property defined by the `@tr("Context" => "test")` marker. -/
def c8pi : PropertyInformationQ :=
  { name := "t", ty := .string,
    defined_at := some { text := "@tr(\x22Context\x22 => \x22test\x22)",
                         expression := some (.atTr c8t) } }

/-- Diffing any sequence against itself collects no edit at all, whatever the
cursor counters are (the merge loop always takes the equal-names branch and
`is_equal_property` is reflexive). -/
theorem updateOps_self (xs : List PropertyInformation) :
    ∀ ci ni, updateOps xs xs ci ni = [] := by
  induction xs with
  | nil => intro ci ni; simp [updateOps]
  | cons c cs ih =>
    intro ci ni
    simp [updateOps, lt_irrefl, is_equal_property, is_equal_value, ih]

/-- Evaluation of the shared unit-extraction rule on a present expression
that parses as a signed numeric literal: the three outcomes (unit found at an
index, empty unit list with a unitless literal, no accepted unit). -/
theorem evwu_hit (ex : Expr) (v : ℚ) (u : Unit') (dv : Option DefExpr)
    (us : List Unit') (value : PropertyValue)
    (hconv : convert_number_literal ex = some (v, u)) :
    (∀ i, us.findIdx? (· == u) = some i →
      extract_value_with_unit (some ex) dv us value =
        { value with
          kind := .float, value_float := v, visual_items := unit_model us,
          value_int := (i : Int) })
    ∧ (us = [] → u = .none →
      extract_value_with_unit (some ex) dv us value =
        { value with
          kind := .float, value_float := v, visual_items := unit_model us,
          value_int := 0 })
    ∧ (us.findIdx? (· == u) = none → ¬(us = [] ∧ u = .none) →
      extract_value_with_unit (some ex) dv us value = value) := by
  refine ⟨?_, ?_, ?_⟩
  · intro i hi
    simp [extract_value_with_unit, extract_value_with_unit_impl, hconv, hi, Option.orElse]
  · intro hus hu
    subst hus hu
    simp [extract_value_with_unit, extract_value_with_unit_impl, hconv, Option.orElse]
  · intro hnone hnot
    have : ¬(us.isEmpty && u == Unit'.none) = true := by
      simp only [Bool.and_eq_true, beq_iff_eq, List.isEmpty_iff]
      intro hcontra
      exact hnot ⟨hcontra.1, hcontra.2⟩
    simp [extract_value_with_unit, extract_value_with_unit_impl, hconv, hnone,
      Option.orElse, this]

/-- Evaluation of the `Array` arm when the element prototype is already an
array or too complex: the whole mapping collapses to the JSON escape
hatch. -/
theorem inner_true (X : Ty) (v : Option RValue) (w : ValueMapping)
    (hw : map_value_and_type X none {} = some w)
    (hb : (w.is_too_complex || w.is_array) = true) :
    map_value_and_type (.array X) v {} =
      some { name_prefix := "", is_too_complex := true, is_array := false,
             header := [""], current_values := [],
             array_values := [[{ kind := .code, code := get_code v }]] } := by
  have hcond : ¬(w.is_too_complex = false ∧ w.is_array = false) := by
    rcases Bool.or_eq_true_iff.mp hb with h1 | h1 <;> simp [h1]
  rw [map_value_and_type]
  rw [hw]
  simp [hb, finalize, get_code, hcond]

/-- Evaluation of the `Array` arm on an absent value when the element
prototype is an ordinary (non-array, not-too-complex) mapping. -/
theorem inner_false (X : Ty) (w : ValueMapping)
    (hw : map_value_and_type X none {} = some w)
    (hb : (w.is_too_complex || w.is_array) = false) :
    map_value_and_type (.array X) none {} =
      some { name_prefix := "", is_too_complex := false, is_array := true,
             header := [], current_values := [],
             array_values := [w.current_values] } := by
  rcases Bool.or_eq_false_iff.mp hb with ⟨h1, h2⟩
  rw [map_value_and_type]
  rw [hw]
  simp [h1, h2, finalize, getModel, RValueList.toList]

/-- Claim C1: diffing old = [aaa,bbb,ccc,ddd,eee] against
new = [aaa,aab,abb,bbb*,ddd] (bbb* same name, different payload, both sorted
by name) collects exactly, in this order: insert of aab (new index 1) at old
cursor 1, insert of abb (new index 2) at cursor 2, in-place update of bbb
(cursor 3), remove of ccc (recorded index 4, hitting ccc after the two
inserts shifted it), remove of eee (index 5); and replaying the script turns
the old rows into exactly the new content and order. -/
theorem C1_update_grouped_properties_trace :
    updateOps c1_old c1_new 0 0 =
      [Op.insert 1 1, Op.insert 2 2, Op.copy 3 3, Op.remove 4, Op.remove 5]
    ∧ update_grouped_properties c1_old c1_new = c1_new := by
  constructor
  · simp +decide [updateOps, c1_old, c1_new, mkRow, is_equal_property, is_equal_value]
  · simp +decide [update_grouped_properties, updateOps, applyOp, listInsertAt, c1_old,
      c1_new, mkRow, is_equal_property, is_equal_value]

/-- Claim C2 (code bug evidence): flattening a `Brush`- or `Image`-typed
value hits a `todo!()` and panics (modelled as `none`) instead of producing
any result, contradicting the claim that every type outside the known
scalar/struct/array set degrades to a single `Code` column; the genuine
catch-all arm (`Ty.other`, covering `Invalid`, `Void`, `Callback`, ...) does
produce that single JSON `Code` column for every value. -/
theorem C2_map_value_and_type_todo_panics :
    map_value_and_type .brush none {} = none
    ∧ map_value_and_type .image none {} = none
    ∧ ∀ v, map_value_and_type .other v {} =
        some { header := [""],
               array_values := [[{ kind := .code, value_string := "???",
                                   code := get_code v }]] } :=
  ⟨rfl, rfl, fun _ => rfl⟩

/-- Claim C3 (amended): for every enumeration-typed property, projection
always yields an `Enum`-kind value (never `Code`), carrying the enumeration
name and the member list in declared order and length, and exposing the
declared default index in the separate `default_selection` field; but the
*selected* index falls back to 0 — not to the declared default index — both
when the expression is absent (with no compiled enumeration default) and
when the expression's member name is not recognized; a recognized member
yields its position. -/
theorem C3_enum_projection (pi : PropertyInformationQ) (e : Enumeration)
    (h : pi.ty = Ty.enumeration e) :
    (simplify_value pi).kind = .enum'
    ∧ (simplify_value pi).value_string = e.name
    ∧ (simplify_value pi).visual_items = e.values
    ∧ (simplify_value pi).default_selection = (i32OfNat? e.default_value).getD 0
    ∧ (exprOf pi = none → pi.default_value = none → (simplify_value pi).value_int = 0)
    ∧ (∀ parts, exprOf pi = some (.qualifiedName parts) →
        e.values.findIdx? (· == enumMemberText e parts) = none →
        (simplify_value pi).value_int = 0)
    ∧ (∀ parts i, exprOf pi = some (.qualifiedName parts) →
        e.values.findIdx? (· == enumMemberText e parts) = some i → i ≤ 2 ^ 31 - 1 →
        (simplify_value pi).value_int = (i : Int)) := by
  refine ⟨?_, ?_, ?_, ?_, ?_, ?_, ?_⟩
  · cases hexp : exprOf pi with
    | none =>
      cases hdv : pi.default_value with
      | none => simp [simplify_value, h, hexp, hdv]
      | some dv => cases dv <;> simp [simplify_value, h, hexp, hdv]
    | some ex => cases ex <;> simp [simplify_value, h, hexp]
  · cases hexp : exprOf pi with
    | none =>
      cases hdv : pi.default_value with
      | none => simp [simplify_value, h, hexp, hdv]
      | some dv => cases dv <;> simp [simplify_value, h, hexp, hdv]
    | some ex => cases ex <;> simp [simplify_value, h, hexp]
  · cases hexp : exprOf pi with
    | none =>
      cases hdv : pi.default_value with
      | none => simp [simplify_value, h, hexp, hdv]
      | some dv => cases dv <;> simp [simplify_value, h, hexp, hdv]
    | some ex => cases ex <;> simp [simplify_value, h, hexp]
  · cases hexp : exprOf pi with
    | none =>
      cases hdv : pi.default_value with
      | none => simp [simplify_value, h, hexp, hdv]
      | some dv => cases dv <;> simp [simplify_value, h, hexp, hdv]
    | some ex => cases ex <;> simp [simplify_value, h, hexp]
  · intro hexp hdv
    simp [simplify_value, h, hexp, hdv, initValue]
  · intro parts hexp hnone
    simp [simplify_value, h, hexp, hnone]
  · intro parts i hexp hi hle
    have hle' : i ≤ 2147483647 := by omega
    simp [simplify_value, h, hexp, hi, i32OfNat?, hle']

/-- Claim C3 counterexample: for the enumeration `Dir` with declared default
index 1, projecting a property with no expression yields selected index 0,
not the declared default index, refuting the claim as stated. -/
theorem C3_enum_default_index_counterexample :
    exprOf c3pi = none ∧ c3e.default_value = 1
    ∧ (simplify_value c3pi).kind = .enum'
    ∧ (simplify_value c3pi).value_int = 0
    ∧ (simplify_value c3pi).value_int ≠ (c3e.default_value : Int) := by
  refine ⟨rfl, rfl, ?_, ?_, ?_⟩ <;> decide

/-- Claim C3 witness: the amended theorem applied to the concrete
enumeration property with an absent expression. -/
theorem C3_enum_projection_witness :
    (simplify_value c3pi).kind = .enum' ∧ (simplify_value c3pi).value_int = 0 :=
  ⟨(C3_enum_projection c3pi c3e rfl).1,
   (C3_enum_projection c3pi c3e rfl).2.2.2.2.1 rfl rfl⟩

/-- Claim C4: for every numeric-kind property (Float32, Duration, the length
types, Angle, Percent — `numericUnits` gives each its accepted unit list)
whose expression is a signed numeric literal (value and unit extracted by
`convert_number_literal`): if the unit occurs in the list at position `i`,
projection yields a `Float` value with that magnitude and unit index `i`; if
the list is empty and the unit is "none", it yields index 0; if the unit is
outside the list, the value stays exactly the initial `Code` value; and the
extraction folds leading unary `-`/`+` into the magnitude. -/
theorem C4_numeric_literal_projection (pi : PropertyInformationQ)
    (us : List Unit') (ex : Expr) (v : ℚ) (u : Unit')
    (hty : numericUnits pi.ty = some us)
    (hex : exprOf pi = some ex)
    (hconv : convert_number_literal ex = some (v, u)) :
    (∀ i, us.findIdx? (· == u) = some i →
      (simplify_value pi).kind = .float ∧ (simplify_value pi).value_float = v
        ∧ (simplify_value pi).value_int = (i : Int))
    ∧ (us = [] → u = .none →
      (simplify_value pi).kind = .float ∧ (simplify_value pi).value_float = v
        ∧ (simplify_value pi).value_int = 0)
    ∧ (us.findIdx? (· == u) = none → ¬(us = [] ∧ u = .none) →
      simplify_value pi = initValue pi)
    ∧ (∀ (e' : Expr) (v' : ℚ) (u' : Unit'),
      convert_number_literal e' = some (v', u') →
      convert_number_literal (.unary "-" e') = some (-v', u')
        ∧ convert_number_literal (.unary "+" e') = some (v', u')) := by
  have hsv : simplify_value pi = extract_value_with_unit (some ex) pi.default_value us
      (initValue pi) := by
    cases hty' : pi.ty <;> rw [hty'] at hty <;> simp [numericUnits] at hty <;>
      subst hty <;> simp [simplify_value, hty', hex]
  have key := evwu_hit ex v u pi.default_value us (initValue pi) hconv
  refine ⟨?_, ?_, ?_, ?_⟩
  · intro i hi
    rw [hsv, key.1 i hi]
    exact ⟨rfl, rfl, rfl⟩
  · intro hus hu
    rw [hsv, key.2.1 hus hu]
    exact ⟨rfl, rfl, rfl⟩
  · intro hnone hnot
    rw [hsv, key.2.2 hnone hnot]
  · intro e' v' u' hc
    constructor <;> simp [convert_number_literal, hc]

/-- Claim C4 witness: the duration literal `-2ms` projects to a `Float` of
magnitude -2 with unit index 1 (ms) in the duration unit list [s, ms]. -/
theorem C4_numeric_literal_projection_witness :
    (simplify_value c4pi).kind = .float ∧ (simplify_value c4pi).value_float = -2
    ∧ (simplify_value c4pi).value_int = 1 := by
  have hconv : convert_number_literal (Expr.unary "-" (Expr.number 2 .ms))
      = some (-2, Unit'.ms) := by
    simp [convert_number_literal]
  have h := (C4_numeric_literal_projection c4pi [.s, .ms]
    (.unary "-" (.number 2 .ms)) (-2) .ms rfl rfl hconv).1 1 (by decide)
  exact_mod_cast h

/-- Claim C5 (amended): for every element type X whose own prototype
flattening (absent value) returns normally — i.e. X avoids the `todo!()`
types refuted in the counterexample — flattening any runtime value at type
`Array<Array<X>>` yields the too-complex flag set (exposed as `prefer_json`),
the single-element header `[""]`, and exactly one row-group holding exactly
one `Code` value whose text is the JSON rendering of the whole value;
moreover every successful flattening whose too-complex flag is set has
exactly this shape. -/
theorem C5_nested_array_json_escape :
    (∀ (X : Ty) (v : Option RValue),
      (∃ w, map_value_and_type X none {} = some w) →
      map_value_and_type (.array (.array X)) v {} =
        some { name_prefix := "", is_too_complex := true, is_array := false,
               header := [""], current_values := [],
               array_values := [[{ kind := .code, code := get_code v }]] })
    ∧ (∀ (ty : Ty) (v : Option RValue) (m m' : ValueMapping),
      map_value_and_type ty v m = some m' → m'.is_too_complex = true →
      m'.header = [""]
      ∧ m'.array_values = [[{ kind := .code, code := get_code v }]]
      ∧ m'.is_array = false) := by
  constructor
  · intro X v h
    obtain ⟨w, hw⟩ := h
    cases hb : (w.is_too_complex || w.is_array) with
    | true =>
      exact inner_true (.array X) v _ (inner_true X none w hw hb) (by simp)
    | false =>
      exact inner_true (.array X) v _ (inner_false X w hw hb) (by simp)
  · intro ty v m m' h htc
    rw [map_value_and_type.eq_def] at h
    obtain ⟨c, -, hfin⟩ := Option.map_eq_some'.mp h
    subst hfin
    by_cases hc : c.is_too_complex = true
    · by_cases he : c.array_values = [] <;> simp [finalize, hc, he]
    · exfalso
      apply hc
      revert htc
      by_cases he : c.array_values = [] <;> simp [finalize, he, hc]

/-- Claim C5 counterexample: for X = Brush, flattening a value of type
`Array<Array<Brush>>` does not produce the claimed JSON escape-hatch result
at all — the prototype flattening of the element type hits `todo!()` and the
whole call panics (modelled as `none`), so the claim's universal
quantification over every element type X fails. -/
theorem C5_nested_array_panic_counterexample :
    map_value_and_type (.array (.array .brush)) none {} = none := rfl

/-- Claim C5 witness: the amended theorem applied to X = Float32 with an
absent value. -/
theorem C5_nested_array_json_escape_witness :
    map_value_and_type (.array (.array .float32)) none {} =
      some { name_prefix := "", is_too_complex := true, is_array := false,
             header := [""], current_values := [],
             array_values := [[{ kind := .code, code := "" }]] } :=
  C5_nested_array_json_escape.1 .float32 none ⟨_, rfl⟩

/-- Claim C6 (amended): when the merge loop aligns two rows with equal
names, an in-place update is collected if and only if the rows' `type_name`
fields or their values' `code` texts differ — the `code` text is not the
only identity, `type_name` participates too, while the name (already equal)
and every other payload field (magnitudes, units, display priority, ...) do
not; rows judged equal contribute no operation at all, so they are never
written and keep their object identity. -/
theorem C6_update_iff_code_or_type_differs (c n : PropertyInformation)
    (cs ns : List PropertyInformation) (ci ni : Nat) (h : c.name = n.name) :
    updateOps (c :: cs) (n :: ns) ci ni =
      (if c.type_name = n.type_name ∧ c.value.code = n.value.code then []
       else [Op.copy ci ni]) ++ updateOps cs ns (ci + 1) (ni + 1) := by
  have h1 : ¬ c.name < n.name := h ▸ lt_irrefl _
  have h2 : ¬ n.name < c.name := h ▸ lt_irrefl _
  rw [updateOps]
  simp only [h1, h2, if_false, is_equal_property, is_equal_value, h]
  by_cases ht : c.type_name = n.type_name <;> by_cases hc : c.value.code = n.value.code <;>
    simp [ht, hc]

/-- Claim C6 counterexample: two rows with equal names and equal `code`
texts but different `type_name` fields are judged different, so an update is
issued although the codes agree — refuting "updated if and only if the code
fields differ, all other payload fields do not affect equality". -/
theorem C6_code_only_identity_counterexample :
    c6cexc.name = c6cexn.name ∧ c6cexc.value.code = c6cexn.value.code
    ∧ updateOps [c6cexc] [c6cexn] 0 0 = [Op.copy 0 0] := by
  refine ⟨rfl, rfl, ?_⟩
  simp +decide [updateOps, c6cexc, c6cexn, is_equal_property, is_equal_value]

/-- Claim C6 witness: the amended theorem applied to two one-row sequences
with equal names and types but different code texts: one update is
collected. -/
theorem C6_update_iff_code_or_type_differs_witness :
    updateOps [c6wc] [c6wn] 0 0 = [Op.copy 0 0] := by
  rw [C6_update_iff_code_or_type_differs c6wc c6wn [] [] 0 0 rfl]
  simp +decide [updateOps, c6wc, c6wn]

/-- Claim C7 (code bug evidence): flattening a struct-typed value with one
Float32 field produces the header ["a"] of length 1 but a single *empty*
row-group (length 0) — the `std::mem::take` in the function's final block
empties `current_values` before the struct parent reads it back — violating
the claimed invariant `header.len() == every row-group's length` (the
`is_array = false → exactly one row-group` half does hold here). -/
theorem C7_header_row_group_mismatch :
    (map_value_and_type (.struct (.cons "a" .float32 .nil)) none {}).map
      (fun m => (m.header, m.array_values.map List.length, m.is_array))
      = some (["a"], [0], false) := rfl

/-- Claim C8: a string property whose expression is a `@tr(...)` marker
(with an unescapable main string) is projected as a translatable `String` —
carrying over the context, the plural string and the dotted plural-count
name — precisely when it has no interpolation arguments and either carries
no plural string or its plural count is a bare qualified name; in every
other case the value stays exactly the initial `Code` value. -/
theorem C8_tr_projection (pi : PropertyInformationQ) (t : TrData) (s : String)
    (hty : pi.ty = Ty.string)
    (hex : exprOf pi = some (.atTr t))
    (htext : t.text = some s) :
    ((t.args = 0 ∧ (t.pluralLiteral.getD "" = "" ∨ t.pluralExpression.isSome)) →
      simplify_value pi =
        { initValue pi with
          kind := .string, is_translatable := true,
          tr_context := t.context.getD "",
          tr_plural := t.pluralLiteral.getD "",
          tr_plural_expression := (t.pluralExpression.map (String.intercalate ".")).getD "",
          value_string := s })
    ∧ (¬(t.args = 0 ∧ (t.pluralLiteral.getD "" = "" ∨ t.pluralExpression.isSome)) →
      simplify_value pi = initValue pi)
    ∧ (((simplify_value pi).kind = .string ∧ (simplify_value pi).is_translatable = true)
      ↔ (t.args = 0 ∧ (t.pluralLiteral.getD "" = "" ∨ t.pluralExpression.isSome))) := by
  have hsv : simplify_value pi = extract_tr_data t (initValue pi) := by
    simp [simplify_value, hty, hex]
  have harr : (t.args == 0 && ((t.pluralLiteral.getD "").isEmpty
      || (t.pluralExpression.map (String.intercalate ".")).isSome)) = true
      ↔ (t.args = 0 ∧ (t.pluralLiteral.getD "" = "" ∨ t.pluralExpression.isSome)) := by
    simp [String.isEmpty_iff, Option.isSome_map]
  by_cases hcond : t.args = 0 ∧ (t.pluralLiteral.getD "" = "" ∨ t.pluralExpression.isSome)
  · have hres : extract_tr_data t (initValue pi) =
        { initValue pi with
          kind := .string, is_translatable := true,
          tr_context := t.context.getD "",
          tr_plural := t.pluralLiteral.getD "",
          tr_plural_expression := (t.pluralExpression.map (String.intercalate ".")).getD "",
          value_string := s } := by
      rw [extract_tr_data]
      rw [htext]
      simp only [harr.mpr hcond, if_true]
    refine ⟨fun _ => hsv.trans hres, fun hn => (hn hcond).elim, ?_⟩
    rw [hsv, hres]
    simpa using hcond
  · have hfalse : (t.args == 0 && ((t.pluralLiteral.getD "").isEmpty
        || (t.pluralExpression.map (String.intercalate ".")).isSome)) = false := by
      rw [← Bool.not_eq_true, harr]
      exact hcond
    have hres : extract_tr_data t (initValue pi) = initValue pi := by
      rw [extract_tr_data]
      rw [htext]
      simp only [hfalse, Bool.false_eq_true, if_false]
    refine ⟨fun hc => (hcond hc).elim, fun _ => hsv.trans hres, ?_⟩
    rw [hsv, hres]
    constructor
    · intro hk
      rw [show (initValue pi).kind = PropertyValueKind.code from rfl] at hk
      exact absurd hk.1 (by decide)
    · intro hk
      exact absurd hk hcond

/-- Claim C8 witness: `@tr("Context" => "test")` projects as a translatable
string with context "Context", text "test" and no plural data. -/
theorem C8_tr_projection_witness :
    (simplify_value c8pi).kind = .string
    ∧ (simplify_value c8pi).is_translatable = true
    ∧ (simplify_value c8pi).tr_context = "Context"
    ∧ (simplify_value c8pi).value_string = "test"
    ∧ (simplify_value c8pi).tr_plural = "" := by
  have h := (C8_tr_projection c8pi c8t "test" rfl rfl rfl).1 ⟨rfl, Or.inl rfl⟩
  rw [h]
  exact ⟨rfl, rfl, rfl, rfl, rfl⟩

/-- Claim C9: diffing a name-sorted sequence of property rows against an
equal copy of itself collects zero edits (no insert, update, append or
remove) and leaves the collection unchanged. -/
theorem C9_self_diff_idempotent (xs : List PropertyInformation)
    (_sorted : List.Pairwise (fun a b => a.name < b.name) xs) :
    updateOps xs xs 0 0 = [] ∧ update_grouped_properties xs xs = xs := by
  refine ⟨updateOps_self xs 0 0, ?_⟩
  unfold update_grouped_properties
  rw [updateOps_self xs 0 0]
  rfl

/-- Claim C9 witness: the theorem applied to the concrete sorted two-row
sequence. -/
theorem C9_self_diff_idempotent_witness :
    List.Pairwise (fun a b => a.name < b.name) c9xs
    ∧ updateOps c9xs c9xs 0 0 = []
    ∧ update_grouped_properties c9xs c9xs = c9xs :=
  ⟨by simp +decide [c9xs, mkRow, List.pairwise_cons],
   C9_self_diff_idempotent c9xs (by simp +decide [c9xs, mkRow, List.pairwise_cons])⟩

/-- Claim C10: the `rgba_to_color` callback returns the color built by
`from_argb_u8` from the four components exactly when all of them lie in
0..=255, and returns the default color (fully transparent black, all
channels zero) for every out-of-range input — no clamping, no failure. -/
theorem C10_rgba_to_color (r g b a : Int) :
    (0 ≤ r ∧ r < 256 ∧ 0 ≤ g ∧ g < 256 ∧ 0 ≤ b ∧ b < 256 ∧ 0 ≤ a ∧ a < 256 →
      rgba_to_color r g b a = Color.from_argb_u8 a.toNat r.toNat g.toNat b.toNat)
    ∧ (¬(0 ≤ r ∧ r < 256 ∧ 0 ≤ g ∧ g < 256 ∧ 0 ≤ b ∧ b < 256 ∧ 0 ≤ a ∧ a < 256) →
      rgba_to_color r g b a = { a := 0, r := 0, g := 0, b := 0 }) := by
  constructor <;> intro h <;> simp [rgba_to_color, h]

/-- Claim C10 witness: an in-range quadruple builds the color from its
components; a quadruple with a negative red component yields the default
color. -/
theorem C10_rgba_to_color_witness :
    rgba_to_color 10 20 30 40 = Color.from_argb_u8 40 10 20 30
    ∧ rgba_to_color (-1) 20 30 40 = { a := 0, r := 0, g := 0, b := 0 } :=
  ⟨(C10_rgba_to_color 10 20 30 40).1 (by norm_num),
   (C10_rgba_to_color (-1) 20 30 40).2 (by norm_num)⟩
